import Mathlib

/-!
Shallow embedding of the search core of the Obsidian "Simple Search" plugin
(`src/main.ts`).  JavaScript strings are modelled as `List Char`; the
utility functions `prepareSearchTerm`, `matchesSearchTerm`,
`createHighlightedSnippet`, `findMatchingLines` and the scanner
`performLiveSearch` are translated definition-by-definition from the source.
The asynchronous scanner is modelled as a pure recursion over the file list:
the `AbortSignal` becomes an oracle `signal : Nat → Bool` consulted at the
same checkpoints as the code (before and after each content read, at times
`2*t` and `2*t+1` for the `t`-th file), and `app.vault.read` becomes a
function `read : TFile → Except JsStr JsStr` (a rejected promise is
`Except.error`, which — as in the source, where the `await` is not wrapped
in any try/catch — aborts the whole scan).  The list component of the
result collects the `onResult` invocations in the order they happen.
-/

/-- A JavaScript string, modelled as its list of characters. -/
abbrev JsStr := List Char

/-- The character class of the JavaScript regex `\s` (the whitespace
characters replaced by `prepareSearchTerm`):  tab, LF, VT, FF, CR, space,
NBSP, Ogham space mark, the U+2000–U+200A spaces, line/paragraph
separators, narrow no-break space, medium mathematical space, ideographic
space and the BOM. -/
def jsWhitespace (c : Char) : Bool :=
  let n := c.toNat
  n = 9 || n = 10 || n = 11 || n = 12 || n = 13 || n = 32 ||
  n = 0xa0 || n = 0x1680 || (0x2000 ≤ n && n ≤ 0x200a) ||
  n = 0x2028 || n = 0x2029 || n = 0x202f || n = 0x205f ||
  n = 0x3000 || n = 0xfeff

/-- The simple, 1:1 part of JavaScript `s.toLowerCase()`: each character
is lowercased in place via `Char.toLower` (exact on Basic Latin; other
letters, whose Unicode simple mappings are also one character to one
character, are approximated by the identity).  JavaScript's
`String.prototype.toLowerCase` is the Unicode Default Case Conversion,
which additionally contains exactly one length-changing lowercase mapping,
U+0130 → U+0069 U+0307; `toLowerCaseFull` below models that conversion
with its expansion.  All downstream theorems that quantify over strings
hold per character and are insensitive to which 1:1 image a character
gets; length-preservation claims are settled against `toLowerCaseFull`. -/
def toLowerCase (s : JsStr) : JsStr := s.map Char.toLower

/-- JavaScript `s.replace(/\s/g, '_')`: each whitespace character is
replaced by a single underscore. -/
def replaceWsWithUnderscore (s : JsStr) : JsStr :=
  s.map (fun c => if jsWhitespace c then '_' else c)

/-- `prepareSearchTerm` from `src/main.ts`:
`term.toLowerCase().replace(/\s/g, '_')`. -/
def prepareSearchTerm (term : JsStr) : JsStr :=
  replaceWsWithUnderscore (toLowerCase term)

/-- One character under the Unicode Default Case Conversion performed by
JavaScript `toLowerCase`: U+0130 (Latin capital letter I with dot above)
expands to the two code points U+0069 U+0307 — the only lowercase mapping
of length other than one — and every other character maps 1:1 (via
`Char.toLower`, as above). -/
def jsLowerCharFull (c : Char) : JsStr :=
  if c.toNat = 0x130 then ['i', Char.ofNat 0x307] else [c.toLower]

/-- JavaScript `s.toLowerCase()` with the full case conversion: the
concatenation of the per-character conversions. -/
def toLowerCaseFull (s : JsStr) : JsStr := s.flatMap jsLowerCharFull

/-- `prepareSearchTerm` under the full case conversion: what the source's
`term.toLowerCase().replace(/\s/g, '_')` really computes when the input
may contain U+0130. -/
def prepareSearchTermFull (term : JsStr) : JsStr :=
  replaceWsWithUnderscore (toLowerCaseFull term)

/-- JavaScript `hay.indexOf(needle)`, returning `none` for `-1`:
the least index at which `needle` occurs in `hay`. -/
def firstIndexOf (hay needle : JsStr) : Option Nat :=
  match hay with
  | [] => if needle.isPrefixOf [] then some 0 else none
  | c :: t =>
    if needle.isPrefixOf (c :: t) then some 0
    else (firstIndexOf t needle).map (fun n => n + 1)

/-- JavaScript `s.includes(needle)` (equivalent to `s.indexOf(needle) !== -1`). -/
def jsIncludes (s needle : JsStr) : Bool := (firstIndexOf s needle).isSome

/-- `matchesSearchTerm` from `src/main.ts`: normalize the text, then test
substring containment of the (already normalized) search term. -/
def matchesSearchTerm (text searchTerm : JsStr) : Bool :=
  let cleanedText := prepareSearchTerm text
  jsIncludes cleanedText searchTerm

/-- JavaScript `s.substring(start, stop)`: both arguments are clamped into
`[0, s.length]` and swapped if out of order (arguments are `Nat` here since
every call site passes non-negative values). -/
def jsSubstring (s : JsStr) (start stop : Nat) : JsStr :=
  let a := min start s.length
  let b := min stop s.length
  (s.take (max a b)).drop (min a b)

/-- `createHighlightedSnippet` from `src/main.ts`: locate the normalized
term in the normalized line; on a miss return the raw line unchanged; on a
hit slice a window of 50 raw characters on each side of the match out of
the raw line and wrap the matched portion in `<strong>` tags.
`Math.max(0, index - 50)` is `Nat` truncated subtraction. -/
def createHighlightedSnippet (line rawTerm : JsStr) : JsStr :=
  let cleanedLine := prepareSearchTerm line
  let cleanedSearchTerm := prepareSearchTerm rawTerm
  match firstIndexOf cleanedLine cleanedSearchTerm with
  | none => line
  | some index =>
    let snippetStart := index - 50
    let snippetEnd := min line.length (index + rawTerm.length + 50)
    let snippet := jsSubstring line snippetStart snippetEnd
    let relativeIndex := index - snippetStart
    let beforeMatch := jsSubstring snippet 0 relativeIndex
    let matchPortion := jsSubstring snippet relativeIndex (relativeIndex + rawTerm.length)
    let afterMatch := jsSubstring snippet (relativeIndex + rawTerm.length) snippet.length
    beforeMatch ++ "<strong>".toList ++ matchPortion ++ "</strong>".toList ++ afterMatch

/-- `findMatchingLines` from `src/main.ts`: split the content on newline
characters and collect a highlighted snippet for every matching line, in
order. -/
def findMatchingLines (content rawTerm : JsStr) : List JsStr :=
  let searchTerm := prepareSearchTerm rawTerm
  ((content.splitOn '\n').filter (fun line => matchesSearchTerm line searchTerm)).map
    (fun line => createHighlightedSnippet line rawTerm)

/-- The part of Obsidian's `TFile` the scanner uses: a file name (matched
against the query) and a path (display identity). -/
structure TFile where
  name : JsStr
  path : JsStr
deriving DecidableEq

/-- `SearchResult` from `src/main.ts`. -/
structure SearchResult where
  file : TFile
  matchingLines : List JsStr
deriving DecidableEq

/-- How one scan ends: the loop ran off the end of the file list
(`completed`), an abort-signal check fired (`cancelled`, a normal return in
the source), or a content read rejected (`failed`, the un-caught promise
rejection of `performLiveSearch`). -/
inductive ScanOutcome where
  | completed : ScanOutcome
  | cancelled : ScanOutcome
  | failed : JsStr → ScanOutcome
deriving DecidableEq

/-- The `for (const file of files)` loop of `performLiveSearch`.  `t` is
the index of the current file; the abort signal is consulted at time `2*t`
before the read and `2*t+1` after it, exactly the two `signal.aborted`
checks in the source.  Returns the list of `onResult` invocations in order,
paired with how the scan ended. -/
def scanLoop (rawTerm searchTerm : JsStr) (read : TFile → Except JsStr JsStr)
    (signal : Nat → Bool) : List TFile → Nat → List SearchResult × ScanOutcome
  | [], _ => ([], ScanOutcome.completed)
  | f :: rest, t =>
    if signal (2 * t) then ([], ScanOutcome.cancelled)
    else
      match read f with
      | Except.error e => ([], ScanOutcome.failed e)
      | Except.ok fileContent =>
        if signal (2 * t + 1) then ([], ScanOutcome.cancelled)
        else
          let fileNameMatches := matchesSearchTerm f.name searchTerm
          let matchingLines := findMatchingLines fileContent rawTerm
          let r := scanLoop rawTerm searchTerm read signal rest (t + 1)
          if fileNameMatches || decide (matchingLines.length > 0) then
            ({ file := f, matchingLines := matchingLines } :: r.1, r.2)
          else r

/-- `performLiveSearch` from `src/main.ts`: normalize the raw term, return
immediately when the normalized term is empty (`if (!searchTerm) return`),
otherwise run the scan loop over the vault's files. -/
def performLiveSearch (rawTerm : JsStr) (files : List TFile)
    (read : TFile → Except JsStr JsStr) (signal : Nat → Bool) :
    List SearchResult × ScanOutcome :=
  let searchTerm := prepareSearchTerm rawTerm
  if searchTerm.isEmpty then ([], ScanOutcome.completed)
  else scanLoop rawTerm searchTerm read signal files 0

/-- Does a file qualify for a result: its name matches, or at least one of
its content lines matches (the condition guarding `onResult`). -/
def qualifies (rawTerm searchTerm : JsStr) (name content : JsStr) : Bool :=
  matchesSearchTerm name searchTerm || decide ((findMatchingLines content rawTerm).length > 0)

/-- Reference description of an undisturbed scan: one result per
qualifying file, in file order. -/
def scanResults (rawTerm searchTerm : JsStr) (content : TFile → JsStr)
    (files : List TFile) : List SearchResult :=
  (files.filter (fun f => qualifies rawTerm searchTerm f.name (content f))).map
    (fun f => { file := f, matchingLines := findMatchingLines (content f) rawTerm })

/-- The window that `createHighlightedSnippet` slices out of the raw line
for a match at `index` (its `snippet` local). -/
def snippetWindow (line rawTerm : JsStr) (index : Nat) : JsStr :=
  jsSubstring line (index - 50) (min line.length (index + rawTerm.length + 50))

/-- The three segments `beforeMatch`, `matchPortion`, `afterMatch` that
`createHighlightedSnippet` cuts the window into. -/
def snippetSegments (line rawTerm : JsStr) (index : Nat) : JsStr × JsStr × JsStr :=
  let snippet := snippetWindow line rawTerm index
  let relativeIndex := index - (index - 50)
  (jsSubstring snippet 0 relativeIndex,
   jsSubstring snippet relativeIndex (relativeIndex + rawTerm.length),
   jsSubstring snippet (relativeIndex + rawTerm.length) snippet.length)

/-- Demo corpus file A ("a cat" — matches the query "cat"). -/
def fileA : TFile := { name := "A.md".toList, path := "A.md".toList }

/-- Demo corpus file B ("dog" — does not match the query "cat"). -/
def fileB : TFile := { name := "B.md".toList, path := "B.md".toList }

/-- Demo corpus file C ("cat too" — matches the query "cat"). -/
def fileC : TFile := { name := "C.md".toList, path := "C.md".toList }

/-- Contents of the demo corpus. -/
def demoContent (f : TFile) : JsStr :=
  if f = fileA then "a cat".toList
  else if f = fileC then "cat too".toList
  else "dog".toList

/-- A reader over the demo corpus for which every read succeeds. -/
def demoRead (f : TFile) : Except JsStr JsStr := Except.ok (demoContent f)

/-- A reader over the demo corpus for which reading file B fails. -/
def flakyRead (f : TFile) : Except JsStr JsStr :=
  if f = fileB then Except.error "io".toList else Except.ok (demoContent f)

/-- Two strings differ only by trading whitespace for underscores:
position by position the characters are equal, or one is whitespace where
the other is an underscore. -/
def wsUnderscoreAligned : JsStr → JsStr → Bool
  | [], [] => true
  | c :: s, d :: t =>
    (c == d || jsWhitespace c && (d == '_') || (c == '_') && jsWhitespace d)
      && wsUnderscoreAligned s t
  | _, _ => false

/-- Length preservation of the 1:1 model, shared by later proofs. -/
theorem prepare_length (s : JsStr) : (prepareSearchTerm s).length = s.length := by
  simp [prepareSearchTerm, toLowerCase, replaceWsWithUnderscore]

/-- Away from U+0130 the full case conversion is the 1:1 one: on strings
free of that character the two models of `toLowerCase` coincide. -/
theorem toLowerCaseFull_eq_of_no_dotI :
    ∀ (s : JsStr), (∀ c ∈ s, c.toNat ≠ 0x130) → toLowerCaseFull s = toLowerCase s
  | [], _ => rfl
  | c :: s, h => by
    have hc : c.toNat ≠ 0x130 := h c (List.mem_cons_self c s)
    have ih := toLowerCaseFull_eq_of_no_dotI s (fun d hd => h d (List.mem_cons_of_mem c hd))
    simp [toLowerCaseFull, toLowerCase, jsLowerCharFull, hc] at ih ⊢
    exact ih

/-- On strings free of U+0130 even the full conversion preserves length:
the failure demonstrated for C1 is confined to that one character. -/
theorem prepareFull_length_of_no_dotI (s : JsStr) (h : ∀ c ∈ s, c.toNat ≠ 0x130) :
    (prepareSearchTermFull s).length = s.length := by
  rw [prepareSearchTermFull, toLowerCaseFull_eq_of_no_dotI s h]
  exact prepare_length s

/-- A boolean prefix is no longer than the list it prefixes. -/
theorem isPrefixOf_length_le :
    ∀ (a b : JsStr), a.isPrefixOf b = true → a.length ≤ b.length
  | [], _, _ => Nat.zero_le _
  | _ :: _, [], h => by simp [List.isPrefixOf] at h
  | x :: xs, y :: ys, h => by
    rw [List.isPrefixOf_cons₂, Bool.and_eq_true] at h
    exact Nat.succ_le_succ (isPrefixOf_length_le xs ys h.2)

/-- A match found by `firstIndexOf` lies entirely inside the haystack. -/
theorem firstIndexOf_add_length_le :
    ∀ (hay needle : JsStr) (i : Nat),
      firstIndexOf hay needle = some i → i + needle.length ≤ hay.length
  | [], needle, i, h => by
    by_cases hp : needle.isPrefixOf ([] : JsStr) = true
    · simp [firstIndexOf, hp] at h
      subst h
      simpa using isPrefixOf_length_le needle [] hp
    · simp [firstIndexOf, hp] at h
  | c :: t, needle, i, h => by
    by_cases hp : needle.isPrefixOf (c :: t) = true
    · simp [firstIndexOf, hp] at h
      subst h
      simpa using isPrefixOf_length_le needle (c :: t) hp
    · simp [firstIndexOf, hp] at h
      obtain ⟨j, hj, rfl⟩ := h
      have := firstIndexOf_add_length_le t needle j hj
      simpa [Nat.add_right_comm] using Nat.add_le_add_right this 1

/-- Length of a JavaScript substring, in terms of the clamped endpoints. -/
theorem jsSubstring_length (s : JsStr) (a b : Nat) :
    (jsSubstring s a b).length =
      max (min a s.length) (min b s.length) - min (min a s.length) (min b s.length) := by
  simp [jsSubstring]

/-- One step of the reference scan description. -/
theorem scanResults_cons (rawTerm searchTerm : JsStr) (content : TFile → JsStr)
    (f : TFile) (rest : List TFile) :
    scanResults rawTerm searchTerm content (f :: rest)
      = if qualifies rawTerm searchTerm f.name (content f)
        then { file := f, matchingLines := findMatchingLines (content f) rawTerm }
              :: scanResults rawTerm searchTerm content rest
        else scanResults rawTerm searchTerm content rest := by
  simp only [scanResults, List.filter_cons]
  split <;> simp

/-- With the abort signal never set and every read succeeding, the scan
loop reports exactly the reference results and completes. -/
theorem scanLoop_no_abort (rawTerm searchTerm : JsStr)
    (read : TFile → Except JsStr JsStr) (signal : Nat → Bool)
    (content : TFile → JsStr) (hsig : ∀ u, signal u = false) :
    ∀ (files : List TFile) (t : Nat),
      (∀ f ∈ files, read f = Except.ok (content f)) →
      scanLoop rawTerm searchTerm read signal files t
        = (scanResults rawTerm searchTerm content files, ScanOutcome.completed)
  | [], _, _ => by simp [scanLoop, scanResults]
  | f :: rest, t, hread => by
    have hf : read f = Except.ok (content f) := hread f (List.mem_cons_self f rest)
    have ih := scanLoop_no_abort rawTerm searchTerm read signal content hsig rest (t + 1)
      (fun g hg => hread g (List.mem_cons_of_mem f hg))
    rw [scanResults_cons]
    simp only [scanLoop, hsig, hf, ih, qualifies, Bool.false_eq_true, if_false]
    by_cases hq : (matchesSearchTerm f.name searchTerm
        || decide ((findMatchingLines (content f) rawTerm).length > 0)) = true
    · rw [if_pos hq, if_pos hq]
    · rw [if_neg hq, if_neg hq]

/-- If the abort signal is set at the checkpoint before the `k`-th file
still to scan and all reads succeed, the loop stops as cancelled, having
reported only files that precede the stopping point. -/
theorem scanLoop_abort (rawTerm searchTerm : JsStr)
    (read : TFile → Except JsStr JsStr) (signal : Nat → Bool) (content : TFile → JsStr)
    (hread : ∀ f, read f = Except.ok (content f)) :
    ∀ (files : List TFile) (t k : Nat),
      signal (2 * (t + k)) = true → k < files.length →
      ∃ j ≤ k, scanLoop rawTerm searchTerm read signal files t
        = (scanResults rawTerm searchTerm content (files.take j), ScanOutcome.cancelled)
  | [], _, k, _, hk => absurd hk (by simp)
  | f :: rest, t, k, hs, hk => by
    by_cases h0 : signal (2 * t) = true
    · exact ⟨0, Nat.zero_le _, by simp [scanLoop, h0, scanResults]⟩
    · by_cases h1 : signal (2 * t + 1) = true
      · exact ⟨0, Nat.zero_le _, by simp [scanLoop, h0, h1, hread f, scanResults]⟩
      · match k with
        | 0 => exact absurd (by simpa using hs) h0
        | k + 1 =>
          have hs' : signal (2 * ((t + 1) + k)) = true := by
            have he : 2 * (t + (k + 1)) = 2 * ((t + 1) + k) := by ring
            rwa [he] at hs
          have hk' : k < rest.length := by
            simpa using Nat.lt_of_succ_lt_succ hk
          obtain ⟨j, hj, hloop⟩ := scanLoop_abort rawTerm searchTerm read signal content
            hread rest (t + 1) k hs' hk'
          refine ⟨j + 1, Nat.succ_le_succ hj, ?_⟩
          rw [List.take_succ_cons, scanResults_cons]
          simp only [scanLoop, h0, h1, hread f, hloop, qualifies, Bool.false_eq_true, if_false]
          by_cases hq : (matchesSearchTerm f.name searchTerm
              || decide ((findMatchingLines (content f) rawTerm).length > 0)) = true
          · rw [if_pos hq, if_pos hq]
          · rw [if_neg hq, if_neg hq]

/-- With the abort signal never set, a failing read for the file `bad`
ends the scan with a failure: the files before `bad` are reported as
usual, `bad` and everything after it never are. -/
theorem scanLoop_read_failure (rawTerm searchTerm : JsStr)
    (read : TFile → Except JsStr JsStr) (signal : Nat → Bool) (content : TFile → JsStr)
    (bad : TFile) (e : JsStr)
    (hsig : ∀ u, signal u = false) (hbad : read bad = Except.error e) :
    ∀ (pre post : List TFile) (t : Nat),
      (∀ f ∈ pre, read f = Except.ok (content f)) →
      scanLoop rawTerm searchTerm read signal (pre ++ bad :: post) t
        = (scanResults rawTerm searchTerm content pre, ScanOutcome.failed e)
  | [], post, t, _ => by simp [scanLoop, hsig, hbad, scanResults]
  | f :: pre, post, t, hread => by
    have hf : read f = Except.ok (content f) := hread f (List.mem_cons_self f pre)
    have ih := scanLoop_read_failure rawTerm searchTerm read signal content bad e hsig hbad
      pre post (t + 1) (fun g hg => hread g (List.mem_cons_of_mem f hg))
    rw [List.cons_append, scanResults_cons]
    simp only [scanLoop, hsig, hf, ih, qualifies, Bool.false_eq_true, if_false]
    by_cases hq : (matchesSearchTerm f.name searchTerm
        || decide ((findMatchingLines (content f) rawTerm).length > 0)) = true
    · rw [if_pos hq, if_pos hq]
    · rw [if_neg hq, if_neg hq]

/-- Whitespace characters carry no case, so lowercasing leaves them
unchanged. -/
theorem toLower_of_jsWhitespace (c : Char) (h : jsWhitespace c = true) :
    c.toLower = c := by
  have hn : ¬(c.toNat ≥ 65 ∧ c.toNat ≤ 90) := by
    simp only [jsWhitespace, Bool.or_eq_true, decide_eq_true_eq, Bool.and_eq_true] at h
    omega
  simp [Char.toLower, hn]

/-- Unfolding `prepareSearchTerm` one character at a time. -/
theorem prepare_cons (c : Char) (s : JsStr) :
    prepareSearchTerm (c :: s)
      = (if jsWhitespace c.toLower then '_' else c.toLower) :: prepareSearchTerm s := rfl

/-- Characters related by the whitespace/underscore trade normalize
identically. -/
theorem normChar_eq (c d : Char)
    (h : (c == d || jsWhitespace c && (d == '_') || (c == '_') && jsWhitespace d) = true) :
    (if jsWhitespace c.toLower then '_' else c.toLower)
      = (if jsWhitespace d.toLower then '_' else d.toLower) := by
  have hu : ('_' : Char).toLower = '_' := by decide
  have hw : jsWhitespace '_' = false := by decide
  simp only [Bool.or_eq_true, Bool.and_eq_true, beq_iff_eq] at h
  rcases h with (rfl | ⟨hc, rfl⟩) | ⟨rfl, hd⟩
  · rfl
  · rw [toLower_of_jsWhitespace c hc, hu]
    simp [hc, hw]
  · rw [toLower_of_jsWhitespace d hd, hu]
    simp [hd, hw]

/-- Aligned strings have the same normalized form. -/
theorem prepare_eq_of_aligned :
    ∀ (s t : JsStr), wsUnderscoreAligned s t = true →
      prepareSearchTerm s = prepareSearchTerm t
  | [], [], _ => rfl
  | [], _ :: _, h => by simp [wsUnderscoreAligned] at h
  | _ :: _, [], h => by simp [wsUnderscoreAligned] at h
  | c :: s, d :: t, h => by
    rw [wsUnderscoreAligned, Bool.and_eq_true] at h
    rw [prepare_cons, prepare_cons, normChar_eq c d h.1,
      prepare_eq_of_aligned s t h.2]

/-- C1: the claimed universal length preservation of `prepareSearchTerm`
fails in the source.  JavaScript's full case conversion maps the one-
character string U+0130 to U+0069 U+0307, so the normalized form has
length 2 where the input has length 1 — against the code's own comments
("1:1 char mapping", "preserving string length") and the spec's stated
invariant.  The theorem evaluates the faithful model at that failing
input. -/
theorem dotI_breaks_length_preservation :
    prepareSearchTermFull [Char.ofNat 0x130] = ['i', Char.ofNat 0x307] ∧
    (prepareSearchTermFull [Char.ofNat 0x130]).length = 2 ∧
    ([Char.ofNat 0x130] : JsStr).length = 1 := by
  refine ⟨by decide, by decide, rfl⟩

/-- C2 counterexample: with files [A, B, C] and query "cat", where A and C
match by content but reading B fails, the scan does NOT skip B and
continue: it ends in failure and C — although it matches — is never
reported.  Only A, scanned before the failure, appears. -/
theorem readFailure_skip_cex :
    matchesSearchTerm (demoContent fileC) (prepareSearchTerm ("cat".toList)) = true ∧
    (performLiveSearch ("cat".toList) [fileA, fileB, fileC] flakyRead (fun _ => false)).1.map
        (fun r => r.file) = [fileA] ∧
    (performLiveSearch ("cat".toList) [fileA, fileB, fileC] flakyRead (fun _ => false)).2
      = ScanOutcome.failed ("io".toList) :=
  ⟨by decide, by decide, by decide⟩

/-- C2 (amended): if reading one document fails during an uncancelled scan
with a non-empty normalized query, the scan aborts with that failure:
documents before the failing one are reported as usual, while the failing
document and every document after it are never reported. -/
theorem readFailure_aborts_scan (rawTerm : JsStr) (pre post : List TFile)
    (read : TFile → Except JsStr JsStr) (signal : Nat → Bool) (content : TFile → JsStr)
    (bad : TFile) (e : JsStr)
    (hterm : (prepareSearchTerm rawTerm).isEmpty = false)
    (hsig : ∀ u, signal u = false)
    (hpre : ∀ f ∈ pre, read f = Except.ok (content f))
    (hbad : read bad = Except.error e) :
    performLiveSearch rawTerm (pre ++ bad :: post) read signal
      = (scanResults rawTerm (prepareSearchTerm rawTerm) content pre,
         ScanOutcome.failed e) := by
  simp only [performLiveSearch, hterm, Bool.false_eq_true, if_false]
  exact scanLoop_read_failure rawTerm (prepareSearchTerm rawTerm) read signal content bad e
    hsig hbad pre post 0 hpre

/-- Witness for the amended C2, on the counterexample corpus. -/
theorem readFailure_aborts_scan_witness :
    performLiveSearch ("cat".toList) ([fileA] ++ fileB :: [fileC]) flakyRead (fun _ => false)
      = (scanResults ("cat".toList) (prepareSearchTerm ("cat".toList)) demoContent [fileA],
         ScanOutcome.failed ("io".toList)) :=
  readFailure_aborts_scan ("cat".toList) [fileA] [fileC] flakyRead (fun _ => false)
    demoContent fileB ("io".toList) (by decide) (fun _ => rfl)
    (by
      intro f hf
      rw [List.mem_singleton] at hf
      subst hf
      rfl)
    rfl

/-- C3: end-to-end example — the query "cat sat" normalizes to "cat_sat",
the line "The cat sat" normalizes to "the_cat_sat" which contains it at
index 4, and the snippet is the raw line with exactly the raw 7-character
substring "cat sat" demarcated, preceded by "The " and followed by
nothing. -/
theorem endToEnd_cat_sat :
    prepareSearchTerm ("cat sat".toList) = "cat_sat".toList ∧
    prepareSearchTerm ("The cat sat".toList) = "the_cat_sat".toList ∧
    firstIndexOf ("the_cat_sat".toList) ("cat_sat".toList) = some 4 ∧
    createHighlightedSnippet ("The cat sat".toList) ("cat sat".toList) =
      "The ".toList ++ "<strong>".toList ++ "cat sat".toList
        ++ "</strong>".toList ++ ([] : JsStr) := by
  refine ⟨by decide, by decide, by decide, by decide⟩

/-- C4: when a match is found, the slicing bounds are clamped inside
`[0, line.length]` and in order; the excerpt taken from the raw line — the
before, matched and after segments, markup not counted — has length at
most `100 + rawTerm.length`; and the snippet is exactly those segments
with the markup tags around the matched one. -/
theorem snippet_bounded (line rawTerm : JsStr) (index : Nat)
    (h : firstIndexOf (prepareSearchTerm line) (prepareSearchTerm rawTerm) = some index) :
    (index - 50 ≤ min line.length (index + rawTerm.length + 50) ∧
      min line.length (index + rawTerm.length + 50) ≤ line.length) ∧
    (snippetSegments line rawTerm index).1.length
      + (snippetSegments line rawTerm index).2.1.length
      + (snippetSegments line rawTerm index).2.2.length ≤ 100 + rawTerm.length ∧
    createHighlightedSnippet line rawTerm
      = (snippetSegments line rawTerm index).1 ++ "<strong>".toList
          ++ (snippetSegments line rawTerm index).2.1 ++ "</strong>".toList
          ++ (snippetSegments line rawTerm index).2.2 := by
  have hL := prepare_length line
  have hT := prepare_length rawTerm
  have hb := firstIndexOf_add_length_le _ _ _ h
  rw [hL, hT] at hb
  refine ⟨⟨by omega, by omega⟩, ?_, ?_⟩
  · simp only [snippetSegments, snippetWindow, jsSubstring_length]
    omega
  · simp only [createHighlightedSnippet, h, snippetSegments, snippetWindow]

/-- Witness for C4 at the end-to-end example: line "The cat sat", query
"cat sat", match index 4. -/
theorem snippet_bounded_witness :
    firstIndexOf (prepareSearchTerm ("The cat sat".toList))
        (prepareSearchTerm ("cat sat".toList)) = some 4 ∧
    ((4 - 50 ≤ min ("The cat sat".toList).length (4 + ("cat sat".toList).length + 50) ∧
      min ("The cat sat".toList).length (4 + ("cat sat".toList).length + 50)
        ≤ ("The cat sat".toList).length) ∧
    (snippetSegments ("The cat sat".toList) ("cat sat".toList) 4).1.length
      + (snippetSegments ("The cat sat".toList) ("cat sat".toList) 4).2.1.length
      + (snippetSegments ("The cat sat".toList) ("cat sat".toList) 4).2.2.length
      ≤ 100 + ("cat sat".toList).length ∧
    createHighlightedSnippet ("The cat sat".toList) ("cat sat".toList)
      = (snippetSegments ("The cat sat".toList) ("cat sat".toList) 4).1 ++ "<strong>".toList
          ++ (snippetSegments ("The cat sat".toList) ("cat sat".toList) 4).2.1
          ++ "</strong>".toList
          ++ (snippetSegments ("The cat sat".toList) ("cat sat".toList) 4).2.2) :=
  ⟨by decide, snippet_bounded ("The cat sat".toList) ("cat sat".toList) 4 (by decide)⟩

/-- C5: a raw query whose normalized form is empty causes
`performLiveSearch` to return at once: no file is read, no abort check is
made and `onResult` fires zero times, whatever the corpus, the reader or
the signal. -/
theorem emptyQuery_no_results (rawTerm : JsStr) (files : List TFile)
    (read : TFile → Except JsStr JsStr) (signal : Nat → Bool)
    (h : prepareSearchTerm rawTerm = []) :
    performLiveSearch rawTerm files read signal = ([], ScanOutcome.completed) := by
  simp [performLiveSearch, h]

/-- Witness for C5: the empty query over a one-file corpus whose read
would fail still yields no results and no failure. -/
theorem emptyQuery_no_results_witness :
    performLiveSearch [] [⟨"A.md".toList, "A.md".toList⟩]
      (fun _ => Except.error "io".toList) (fun _ => false)
      = ([], ScanOutcome.completed) :=
  emptyQuery_no_results [] [⟨"A.md".toList, "A.md".toList⟩]
    (fun _ => Except.error "io".toList) (fun _ => false) (by decide)

/-- C6: the signal is consulted at the checkpoints before and after each
read; for a monotone (sticky) abort signal set by the checkpoint of the
`k`-th file, a scan whose reads succeed stops as cancelled — not as a
failure — and the results reported are exactly those of a full scan of
some prefix of fewer than `k + 1` files: nothing is reported after the
abort. -/
theorem cancellation_stops_scan (rawTerm : JsStr) (files : List TFile)
    (read : TFile → Except JsStr JsStr) (signal : Nat → Bool) (content : TFile → JsStr)
    (k : Nat)
    (hterm : (prepareSearchTerm rawTerm).isEmpty = false)
    (_hmono : ∀ a b, a ≤ b → signal a = true → signal b = true)
    (habort : signal (2 * k) = true)
    (hread : ∀ f, read f = Except.ok (content f))
    (hk : k < files.length) :
    ∃ j ≤ k, performLiveSearch rawTerm files read signal
      = (scanResults rawTerm (prepareSearchTerm rawTerm) content (files.take j),
         ScanOutcome.cancelled) := by
  simp only [performLiveSearch, hterm, Bool.false_eq_true, if_false]
  exact scanLoop_abort rawTerm (prepareSearchTerm rawTerm) read signal content hread
    files 0 k (by simpa using habort) hk

/-- Witness for C6: a signal aborted from the start cancels a three-file
scan before any result is reported. -/
theorem cancellation_stops_scan_witness :
    (prepareSearchTerm ("cat".toList)).isEmpty = false ∧
    (∃ j ≤ 0, performLiveSearch ("cat".toList) [fileA, fileB, fileC] demoRead (fun _ => true)
      = (scanResults ("cat".toList) (prepareSearchTerm ("cat".toList)) demoContent
          ([fileA, fileB, fileC].take j), ScanOutcome.cancelled)) :=
  ⟨by decide,
   cancellation_stops_scan ("cat".toList) [fileA, fileB, fileC] demoRead (fun _ => true)
     demoContent 0 (by decide) (fun _ _ _ h => h) rfl (fun _ => rfl) (by decide)⟩

/-- C7: in an uncancelled, failure-free scan with a non-empty normalized
query, `onResult` fires exactly once per qualifying file — name match or
at least one matching content line — in file-enumeration order, and never
for a non-qualifying file (the result list is exactly the filter of the
file list). -/
theorem streaming_order (rawTerm : JsStr) (files : List TFile)
    (read : TFile → Except JsStr JsStr) (signal : Nat → Bool) (content : TFile → JsStr)
    (hterm : (prepareSearchTerm rawTerm).isEmpty = false)
    (hsig : ∀ u, signal u = false)
    (hread : ∀ f ∈ files, read f = Except.ok (content f)) :
    performLiveSearch rawTerm files read signal
      = (scanResults rawTerm (prepareSearchTerm rawTerm) content files,
         ScanOutcome.completed) := by
  simp only [performLiveSearch, hterm, Bool.false_eq_true, if_false]
  exact scanLoop_no_abort rawTerm (prepareSearchTerm rawTerm) read signal content hsig
    files 0 hread

/-- Witness for C7: over files [A, B, C] with query "cat", where A and C
qualify and B does not, the results are exactly [A, C] in that order. -/
theorem streaming_order_witness :
    (prepareSearchTerm ("cat".toList)).isEmpty = false ∧
    performLiveSearch ("cat".toList) [fileA, fileB, fileC] demoRead (fun _ => false)
      = (scanResults ("cat".toList) (prepareSearchTerm ("cat".toList)) demoContent
          [fileA, fileB, fileC], ScanOutcome.completed) ∧
    (scanResults ("cat".toList) (prepareSearchTerm ("cat".toList)) demoContent
        [fileA, fileB, fileC]).map (fun r => r.file) = [fileA, fileC] :=
  ⟨by decide,
   streaming_order ("cat".toList) [fileA, fileB, fileC] demoRead (fun _ => false)
     demoContent (by decide) (fun _ => rfl) (fun f _ => rfl),
   by decide⟩

/-- C8: a file whose name matches the normalized query but none of whose
content lines match is still reported, with an empty `matchingLines`
list. -/
theorem filenameOnly_match_reported (rawTerm c : JsStr) (f : TFile)
    (read : TFile → Except JsStr JsStr) (signal : Nat → Bool)
    (hterm : (prepareSearchTerm rawTerm).isEmpty = false)
    (h0 : signal 0 = false) (h1 : signal 1 = false)
    (hread : read f = Except.ok c)
    (hname : matchesSearchTerm f.name (prepareSearchTerm rawTerm) = true)
    (hlines : findMatchingLines c rawTerm = []) :
    performLiveSearch rawTerm [f] read signal
      = ([{ file := f, matchingLines := [] }], ScanOutcome.completed) := by
  simp [performLiveSearch, hterm, scanLoop, h0, h1, hread, hname, hlines]

/-- Witness for C8: the spec's example — file "doc-shopping-list.md" with
content "nothing relevant" and query "shopping". -/
theorem filenameOnly_match_reported_witness :
    performLiveSearch ("shopping".toList)
        [{ name := "doc-shopping-list.md".toList, path := "doc-shopping-list.md".toList }]
        (fun _ => Except.ok ("nothing relevant".toList)) (fun _ => false)
      = ([{ file := { name := "doc-shopping-list.md".toList,
                      path := "doc-shopping-list.md".toList },
            matchingLines := [] }], ScanOutcome.completed) :=
  filenameOnly_match_reported ("shopping".toList) ("nothing relevant".toList)
    { name := "doc-shopping-list.md".toList, path := "doc-shopping-list.md".toList }
    (fun _ => Except.ok ("nothing relevant".toList)) (fun _ => false)
    (by decide) rfl rfl rfl (by decide) (by decide)

/-- C9: when the normalized line does not contain the normalized query,
`createHighlightedSnippet` returns the raw line completely unchanged (and,
being a total function of its two arguments, never throws). -/
theorem noMatch_returns_line (line rawTerm : JsStr)
    (h : firstIndexOf (prepareSearchTerm line) (prepareSearchTerm rawTerm) = none) :
    createHighlightedSnippet line rawTerm = line := by
  simp [createHighlightedSnippet, h]

/-- Witness for C9: "xyz" does not occur in "hello", so the line comes
back untouched. -/
theorem noMatch_returns_line_witness :
    createHighlightedSnippet ("hello".toList) ("xyz".toList) = "hello".toList :=
  noMatch_returns_line ("hello".toList) ("xyz".toList) (by decide)

/-- C10: normalization maps underscore and every whitespace character to
the same placeholder — strings differing only by that trade normalize
identically — so `matchesSearchTerm` cannot tell a literal underscore in a
document from whitespace in the query: "foo bar" matches "foo_bar" and
vice versa. -/
theorem underscore_whitespace_conflation (s t : JsStr)
    (h : wsUnderscoreAligned s t = true) :
    prepareSearchTerm s = prepareSearchTerm t ∧
    matchesSearchTerm ("foo_bar".toList) (prepareSearchTerm ("foo bar".toList)) = true ∧
    matchesSearchTerm ("foo bar".toList) (prepareSearchTerm ("foo_bar".toList)) = true :=
  ⟨prepare_eq_of_aligned s t h, by decide, by decide⟩

/-- Witness for C10 at s = "foo bar", t = "foo_bar". -/
theorem underscore_whitespace_conflation_witness :
    wsUnderscoreAligned ("foo bar".toList) ("foo_bar".toList) = true ∧
    (prepareSearchTerm ("foo bar".toList) = prepareSearchTerm ("foo_bar".toList) ∧
     matchesSearchTerm ("foo_bar".toList) (prepareSearchTerm ("foo bar".toList)) = true ∧
     matchesSearchTerm ("foo bar".toList) (prepareSearchTerm ("foo_bar".toList)) = true) :=
  ⟨by decide,
   underscore_whitespace_conflation ("foo bar".toList) ("foo_bar".toList) (by decide)⟩
